import Mathlib

/-!
# pdns_exporter: naming and emission pipeline

A shallow embedding of `pdns_exporter.go`.

Go strings are modelled as lists of Unicode code points (`GoString`). Every
name and value string of the program comes out of `encoding/json`, which only
produces valid UTF-8, and on valid UTF-8 a byte-level replacement of the ASCII
patterns `"-"` and `" "` is the same as the rune-level one.

Functions of the Go standard library and of the Prometheus client that the
program calls, and whose code is not part of the repository, are either
embedded from their documented behaviour (`ReplaceAll`, `Sprintf` at the two
format strings used, the ASCII path of `ToLower`) or taken as parameters
(`Runtime`: `unicode.ToLower`, `strconv.ParseFloat`, `json.Unmarshal`).
`prometheus.NewDesc` records an error in the descriptor when the client
rejects the metric name, and `prometheus.MustNewConstMetric` panics on such a
descriptor; the name check differs between versions of the client, so it is a
parameter too (`Runtime.validMetricName`), and the check of the clients of
the time of the program is embedded as `legacyValidMetricName`. A call of
`log.Fatalln` or `log.Fatalf` and a panic both end the process, so a run of
`Collect` is the list of metrics sent on the channel together with the way
the run ended. The two writes to standard output
(`fmt.Println("Simple")`, `fmt.Printf("Failed to decode JSON: ...")`) have no
effect on the metric stream and are not tracked.
-/

namespace PdnsExporter

/-- A Go `string` holding valid UTF-8, as its sequence of runes. -/
abbrev GoString := List Char

/-! ## Library functions -/

/-- Inner loop of `strings.ReplaceAll s old new` for a non-empty `old`: scan
left to right, replace each non-overlapping occurrence of `old` by `new`.
The counter is the number of runes of the current occurrence still to skip. -/
def replaceLoop (old new : GoString) : Nat → GoString → GoString
  | _, [] => []
  | skip + 1, _ :: cs => replaceLoop old new skip cs
  | 0, c :: cs =>
    if old.isPrefixOf (c :: cs) then new ++ replaceLoop old new (old.length - 1) cs
    else c :: replaceLoop old new 0 cs

/-- Go `strings.ReplaceAll(s, old, new)`. With an empty `old` the replacement
is inserted before every rune and at the end of the string. -/
def ReplaceAll (s old new : GoString) : GoString :=
  match old with
  | [] => new ++ (s.map (fun c => c :: new)).flatten
  | _ :: _ => replaceLoop old new 0 s

/-- The ASCII branch of `strings.ToLower`: `'A'..'Z'` are shifted by
`'a' - 'A'`, every other byte is kept. -/
def asciiToLower (c : Char) : Char :=
  if 65 ≤ c.toNat ∧ c.toNat ≤ 90 then Char.ofNat (c.toNat + 32) else c

/-- Go `strings.ToLower(s)`: a string of ASCII bytes only is lower-cased by
`asciiToLower`; any other string is mapped rune by rune through
`unicode.ToLower`, here the parameter `lower`. -/
def ToLower (lower : Char → Char) (s : GoString) : GoString :=
  if s.all (fun c => decide (c.toNat < 128)) then s.map asciiToLower else s.map lower

/-! ## Data model (`pdns_exporter.go`, lines 19-53) -/

/-- Go `SimpleStatisticItem`. -/
structure SimpleStatisticItem where
  Name : GoString
  Value : GoString
  deriving DecidableEq, Repr

/-- Go `Statistic`: the envelope. `Value` is the undecoded `json.RawMessage`.
The Go field `Type` is written `Type_` in all five records, `Type` being a
keyword. -/
structure Statistic (Raw : Type) where
  Value : Raw
  Name : GoString
  Type_ : GoString
  Size : GoString
  deriving DecidableEq, Repr

/-- Go `StatisticItem`. -/
structure StatisticItem where
  Value : GoString
  Name : GoString
  Type_ : GoString
  deriving DecidableEq, Repr

/-- Go `MapStatisticItem`. -/
structure MapStatisticItem where
  Value : List SimpleStatisticItem
  Name : GoString
  Type_ : GoString
  deriving DecidableEq, Repr

/-- Go `RingStatisticItem`. -/
structure RingStatisticItem where
  Value : List SimpleStatisticItem
  Name : GoString
  Type_ : GoString
  Size : GoString
  deriving DecidableEq, Repr

/-- What `prometheus.NewDesc(fqName, help, nil, nil)` is built from. -/
structure Desc where
  fqName : GoString
  help : GoString
  deriving DecidableEq, Repr

/-- Go `prometheus.ValueType`. -/
inductive ValueType where
  | CounterValue
  | GaugeValue
  | UntypedValue
  deriving DecidableEq, Repr

/-- What `prometheus.MustNewConstMetric(desc, valueType, value)` returns when
it does not panic; `V` stands for `float64`. -/
structure Metric (V : Type) where
  desc : Desc
  valueType : ValueType
  value : V
  deriving DecidableEq, Repr

/-- Go `prometheus.MustNewConstMetric` with no label values: `none` is the
panic on a descriptor in which `NewDesc` recorded an error. With no labels
and a help string that is never empty, `NewDesc` records an error exactly
when the client's check `valid` rejects the metric name. -/
def MustNewConstMetric {V : Type} (valid : GoString → Bool) (desc : Desc)
    (valueType : ValueType) (value : V) : Option (Metric V) :=
  if valid desc.fqName then some ⟨desc, valueType, value⟩ else none

/-- The metric-name check of the Prometheus clients of the time of the
program (`model.IsValidMetricName`, the pattern `[a-zA-Z_:][a-zA-Z0-9_:]*`):
the name is not empty, every rune is an ASCII letter, `_`, `:` or a digit,
and the first rune is not a digit. -/
def legacyValidMetricName (n : GoString) : Bool :=
  !n.isEmpty &&
    n.all (fun b => b.isAlpha || b == '_' || b == ':' || b.isDigit) &&
    !(n.headD 'a').isDigit

/-! ## Metric names (`pdns_exporter.go`, lines 118-138) -/

/-- Go `newStatisticItemMetric`. -/
def newStatisticItemMetric (name : GoString) : Desc :=
  { fqName := "pdns_auth_".toList ++ ReplaceAll name "-".toList "_".toList
    help := "See PowerDNS statistic '".toList ++ name ++ "'.".toList }

/-- Go `newMapStatisticItemMetric`. -/
def newMapStatisticItemMetric (name : GoString) : Desc :=
  { fqName := "pdns_auth_map_".toList ++ ReplaceAll name "-".toList "_".toList
    help := "See PowerDNS statistic '".toList ++ name ++ "'".toList }

/-- Go `formatSimpleStatisticItemName`. -/
def formatSimpleStatisticItemName (lower : Char → Char) (name : GoString) : GoString :=
  ReplaceAll (ReplaceAll (ToLower lower name) " ".toList "".toList) "-".toList "_".toList

/-- The descriptor `Collect` builds for a sub-entry of a map record (lines
166-168): `newMapStatisticItemMetric(fmt.Sprintf("%s_%s", parent, format(sub)))`. -/
def mapEntryDesc (lower : Char → Char) (parent sub : GoString) : Desc :=
  newMapStatisticItemMetric (parent ++ "_".toList ++ formatSimpleStatisticItemName lower sub)

/-! ## Library functions taken as parameters -/

/-- The library functions whose code the program only calls. `Raw` is the
content of a `json.RawMessage`, `Body` the bytes of an HTTP response body and
`V` the type `float64`. Every `json.Unmarshal` of the program writes into a
freshly zeroed target, so what it leaves there is a function of the input. -/
structure Runtime (Raw Body V : Type) where
  /-- Go `unicode.ToLower`, used by `strings.ToLower` off the ASCII path. -/
  unicodeToLower : Char → Char
  /-- Go `strconv.ParseFloat(s, 64)`: `some v` when `err == nil`, else `none`. -/
  ParseFloat : GoString → Option V
  /-- The check of a metric name that `prometheus.NewDesc` runs: `false` when
  `NewDesc` records an error in the descriptor. -/
  validMetricName : GoString → Bool
  /-- What `json.Unmarshal(raw, &target)` leaves in a `string` target that
  held `""` (line 207); its error is discarded by the program. -/
  jsonString : Raw → GoString
  /-- What `json.Unmarshal(raw, &target)` leaves in a `[]SimpleStatisticItem`
  target that held `nil` (lines 211, 215); its error is discarded. -/
  jsonItems : Raw → List SimpleStatisticItem
  /-- What `json.Unmarshal(content, &stat)` leaves in `stat`, which held the
  empty slice, together with `err != nil` (line 111). -/
  jsonStatistics : Body → List (Statistic Raw) × Bool

/-! ## Execution model -/

/-- The calls of `log.Fatalln` / `log.Fatalf` in the program; each of them
ends the process. -/
inductive Fatal where
  | newRequest
  | sendRequest
  | readResponse
  | parseFloat
  deriving DecidableEq, Repr

/-- How a run of a block of statements ends. -/
inductive Exit where
  | returned
  | fatal (cause : Fatal)
  | panicked
  deriving DecidableEq, Repr

/-- A run of a block inside `Collect`: the metrics sent on the channel `ch`,
in order, and how the block ended. -/
structure Run (V : Type) where
  sent : List (Metric V)
  exit : Exit
  deriving DecidableEq, Repr

/-- The empty block. -/
def Run.skip {V : Type} : Run V := ⟨[], .returned⟩

/-- The statement `ch <- m`. -/
def Run.send {V : Type} (m : Metric V) : Run V := ⟨[m], .returned⟩

/-- A call of `log.Fatalf`. -/
def Run.fatal {V : Type} (cause : Fatal) : Run V := ⟨[], .fatal cause⟩

/-- The statement `ch <- prometheus.MustNewConstMetric(...)`: the metric is
built first, and a panic of the constructor ends the process before anything
is sent. -/
def Run.sendMust {V : Type} (m : Option (Metric V)) : Run V :=
  match m with
  | none => ⟨[], .panicked⟩
  | some metric => Run.send metric

/-- Sequencing `r; k`: the rest `k` runs only when `r` came to its end. -/
def Run.andThen {V : Type} (r k : Run V) : Run V :=
  match r.exit with
  | .returned => ⟨r.sent ++ k.sent, k.exit⟩
  | _ => r

/-- A Go `for _, x := range xs { body }`. -/
def forEach {α V : Type} (body : α → Run V) : List α → Run V
  | [] => Run.skip
  | x :: xs => (body x).andThen (forEach body xs)

/-! ## The classifier (`pdns_exporter.go`, lines 201-219) -/

/-- The three slices `unmarshallStatistics` appends to through its pointer
arguments. -/
structure Collections where
  statisticItems : List StatisticItem
  mapStatisticItems : List MapStatisticItem
  ringStatisticItems : List RingStatisticItem
  deriving DecidableEq, Repr

/-- The body of the loop of `unmarshallStatistics`: the `switch` on
`statistic.Type`, which has no `default` case. -/
def unmarshallStatistic {Raw Body V : Type} (lib : Runtime Raw Body V)
    (c : Collections) (statistic : Statistic Raw) : Collections :=
  if statistic.Type_ = "StatisticItem".toList then
    { c with statisticItems := c.statisticItems ++
        [{ Name := statistic.Name, Type_ := statistic.Type_, Value := lib.jsonString statistic.Value }] }
  else if statistic.Type_ = "MapStatisticItem".toList then
    { c with mapStatisticItems := c.mapStatisticItems ++
        [{ Name := statistic.Name, Type_ := statistic.Type_, Value := lib.jsonItems statistic.Value }] }
  else if statistic.Type_ = "RingStatisticItem".toList then
    { c with ringStatisticItems := c.ringStatisticItems ++
        [{ Name := statistic.Name, Type_ := statistic.Type_, Size := statistic.Size,
           Value := lib.jsonItems statistic.Value }] }
  else c

/-- Go `unmarshallStatistics`: the state of the three slices after the call,
from their state before it. -/
def unmarshallStatistics {Raw Body V : Type} (lib : Runtime Raw Body V) :
    List (Statistic Raw) → Collections → Collections
  | [], c => c
  | statistic :: rest, c => unmarshallStatistics lib rest (unmarshallStatistic lib c statistic)

/-! ## The emission pipeline (`pdns_exporter.go`, lines 92-116 and 141-174) -/

/-- The outcome of the transport part of `scrapeStatistics` (lines 93-107),
an input of the model. -/
inductive Fetch (Body : Type) where
  | newRequestError
  | sendError
  | readError
  | content (body : Body)
  deriving DecidableEq, Repr

/-- Go `Exporter.scrapeStatistics`: three failures end the process; a failure
of the JSON decoding is printed and `stat` is returned all the same. -/
def scrapeStatistics {Raw Body V : Type} (lib : Runtime Raw Body V) :
    Fetch Body → Except Fatal (List (Statistic Raw))
  | .newRequestError => .error .newRequest
  | .sendError => .error .sendRequest
  | .readError => .error .readResponse
  | .content body => .ok (lib.jsonStatistics body).1

/-- The body of the first loop of `Collect` (lines 151-155). -/
def collectStatisticItem {Raw Body V : Type} (lib : Runtime Raw Body V)
    (statisticItem : StatisticItem) : Run V :=
  match lib.ParseFloat statisticItem.Value with
  | none => Run.fatal .parseFloat
  | some value =>
    Run.sendMust (MustNewConstMetric lib.validMetricName
      (newStatisticItemMetric statisticItem.Name) .CounterValue value)

/-- The body of the inner loop of `Collect` (lines 160-171). -/
def collectSimpleStatisticItem {Raw Body V : Type} (lib : Runtime Raw Body V)
    (mapStatisticItem : MapStatisticItem) (simpleStatisticItem : SimpleStatisticItem) : Run V :=
  match lib.ParseFloat simpleStatisticItem.Value with
  | none => Run.fatal .parseFloat
  | some value =>
    Run.sendMust (MustNewConstMetric lib.validMetricName
      (mapEntryDesc lib.unicodeToLower mapStatisticItem.Name simpleStatisticItem.Name)
      .CounterValue value)

/-- The two loops of `Collect` (lines 150-173) over the classified records.
The ring records are not read. -/
def collectLoops {Raw Body V : Type} (lib : Runtime Raw Body V) (c : Collections) : Run V :=
  (forEach (collectStatisticItem lib) c.statisticItems).andThen
    (forEach (fun mapStatisticItem =>
        forEach (collectSimpleStatisticItem lib mapStatisticItem) mapStatisticItem.Value)
      c.mapStatisticItems)

/-- Lines 144-148 of `Collect`: three empty slices, filled by
`unmarshallStatistics`. -/
def classify {Raw Body V : Type} (lib : Runtime Raw Body V)
    (statistics : List (Statistic Raw)) : Collections :=
  unmarshallStatistics lib statistics ⟨[], [], []⟩

/-- Lines 144-173 of `Collect`: what it does with the envelopes that
`scrapeStatistics` returned. -/
def collectStatistics {Raw Body V : Type} (lib : Runtime Raw Body V)
    (statistics : List (Statistic Raw)) : Run V :=
  collectLoops lib (classify lib statistics)

/-- Go `Exporter.Collect`. -/
def Collect {Raw Body V : Type} (lib : Runtime Raw Body V) (fetch : Fetch Body) : Run V :=
  match scrapeStatistics lib fetch with
  | .error cause => Run.fatal cause
  | .ok statistics => collectStatistics lib statistics

/-! ## The naming rules in the words of the specification -/

/-- The normalisation `N`: every `-` becomes `_`, every other rune is kept. -/
def dashesToUnderscores (s : GoString) : GoString :=
  s.map (fun c => if c = '-' then '_' else c)

/-- The normalisation `F` of a sub-entry name: lower-case, delete every
space, replace every `-` by `_`. -/
def normalizeSubName (lower : Char → Char) (s : GoString) : GoString :=
  dashesToUnderscores ((ToLower lower s).filter (fun c => decide (c ≠ ' ')))

/-- The sub-entry name lower-cased with all spaces and all dashes removed. -/
def dropSpacesAndDashes (lower : Char → Char) (s : GoString) : GoString :=
  (ToLower lower s).filter (fun c => decide (c ≠ ' ') && decide (c ≠ '-'))

/-- The map metric name as C10 words it: the map namespace, `_`, the parent
name as given, `_`, and the sub-entry name lower-cased with all spaces and
all dashes removed. -/
def claimedMapName (lower : Char → Char) (p s : GoString) : GoString :=
  "pdns_auth_map".toList ++ "_".toList ++ p ++ "_".toList ++ dropSpacesAndDashes lower s

/-! ## The pipeline in the words of the specification -/

/-- The work of one scrape cycle in emission order: the scalar records in
source order, then the sub-entries of the map records, map records in source
order and sub-entries in source order; each with the descriptor of its metric
and the string its value is parsed from. -/
def emissionOrder (lower : Char → Char) (c : Collections) : List (Desc × GoString) :=
  c.statisticItems.map (fun it => (newStatisticItemMetric it.Name, it.Value)) ++
    (c.mapStatisticItems.map (fun m =>
      m.Value.map (fun e => (mapEntryDesc lower m.Name e.Name, e.Value)))).flatten

/-- Parse one value, build its counter and send it, or end the process. -/
def emitOne {Raw Body V : Type} (lib : Runtime Raw Body V) (j : Desc × GoString) : Run V :=
  match lib.ParseFloat j.2 with
  | none => Run.fatal .parseFloat
  | some value => Run.sendMust (MustNewConstMetric lib.validMetricName j.1 .CounterValue value)

/-- An item of the work list passes: its value parses and the client accepts
its metric name. -/
def accepted {Raw Body V : Type} (lib : Runtime Raw Body V) (j : Desc × GoString) : Bool :=
  (lib.ParseFloat j.2).isSome && lib.validMetricName j.1.fqName

/-- The type tags with a case in the `switch` of `unmarshallStatistics`. -/
def isKnownType (t : GoString) : Bool :=
  decide (t = "StatisticItem".toList) || decide (t = "MapStatisticItem".toList) ||
    decide (t = "RingStatisticItem".toList)

/-! ## The record an envelope of each tag is decoded into -/

/-- The record a `StatisticItem` envelope is decoded into. -/
def toStatisticItem {Raw Body V : Type} (lib : Runtime Raw Body V) (s : Statistic Raw) :
    StatisticItem :=
  { Name := s.Name, Type_ := s.Type_, Value := lib.jsonString s.Value }

/-- The record a `MapStatisticItem` envelope is decoded into. -/
def toMapStatisticItem {Raw Body V : Type} (lib : Runtime Raw Body V) (s : Statistic Raw) :
    MapStatisticItem :=
  { Name := s.Name, Type_ := s.Type_, Value := lib.jsonItems s.Value }

/-- The record a `RingStatisticItem` envelope is decoded into. -/
def toRingStatisticItem {Raw Body V : Type} (lib : Runtime Raw Body V) (s : Statistic Raw) :
    RingStatisticItem :=
  { Name := s.Name, Type_ := s.Type_, Size := s.Size, Value := lib.jsonItems s.Value }

/-! ## A sample runtime for concrete runs -/

/-- A raw JSON value, already told apart by shape: a string, an array of
objects with string fields `name` and `value`, or a number. -/
inductive SampleRaw where
  | str (s : GoString)
  | items (l : List SimpleStatisticItem)
  | number (n : Nat)
  deriving DecidableEq, Repr

/-- The value of a non-empty string of decimal digits; no other string is
accepted. On a string of decimal digits of value below `2^53`
`strconv.ParseFloat` returns that value, and it rejects the empty string and
the string `abc`, as this function does. -/
def parseDigits (s : GoString) : Option Nat :=
  if s.isEmpty then none
  else s.foldl (fun acc c =>
    match acc with
    | none => none
    | some n => if c.isDigit then some (10 * n + (c.toNat - 48)) else none) (some 0)

/-- A runtime that behaves as the Go library does on the inputs used below:
ASCII names, values that are digit strings or letters, raw values of the
expected shape or of a wrong one (which `json.Unmarshal` leaves as the zero
value), and a response body given as the pair that the top-level
`json.Unmarshal` produces from it. Metric names are checked as the clients of
the time of the program check them. -/
def sampleRuntime : Runtime SampleRaw (List (Statistic SampleRaw) × Bool) Nat where
  unicodeToLower := fun c => c
  ParseFloat := parseDigits
  validMetricName := legacyValidMetricName
  jsonString := fun raw => match raw with
    | .str s => s
    | _ => []
  jsonItems := fun raw => match raw with
    | .items l => l
    | _ => []
  jsonStatistics := fun body => body

/-- Classified records used in the concrete runs: one scalar record, one map
record with one sub-entry, one ring record whose sub-entry value is not a
number. -/
def sampleCollections : Collections where
  statisticItems := [⟨"12345".toList, "uptime".toList, "StatisticItem".toList⟩]
  mapStatisticItems :=
    [⟨[⟨"A Record".toList, "10".toList⟩], "query-types".toList, "MapStatisticItem".toList⟩]
  ringStatisticItems :=
    [⟨[⟨"10.0.0.1".toList, "abc".toList⟩], "remotes".toList, "RingStatisticItem".toList,
      "10000".toList⟩]

/-- Classified records whose values all parse and whose names are not metric
names for the clients of the time of the program: the scalar record
`Up Time` and the sub-entry `10.0.0.1` of the map record `remotes`. -/
def unnameableCollections : Collections where
  statisticItems := [⟨"1".toList, "Up Time".toList, "StatisticItem".toList⟩]
  mapStatisticItems :=
    [⟨[⟨"10.0.0.1".toList, "5".toList⟩], "remotes".toList, "MapStatisticItem".toList⟩]
  ringStatisticItems := []

/-- An envelope of the unknown type `FutureItem`. -/
def futureEnvelope : Statistic SampleRaw :=
  ⟨.str "1".toList, "later".toList, "FutureItem".toList, []⟩

/-- An envelope whose `type` is absent. -/
def untypedEnvelope : Statistic SampleRaw :=
  ⟨.number 3, "nameless".toList, [], []⟩

/-- The envelope `name: uptime, type: StatisticItem, value: "12345"`. -/
def uptimeEnvelope : Statistic SampleRaw :=
  ⟨.str "12345".toList, "uptime".toList, "StatisticItem".toList, []⟩

/-- A ring envelope whose only sub-entry has a value that is not a number. -/
def ringEnvelope : Statistic SampleRaw :=
  ⟨.items [⟨"10.0.0.1".toList, "abc".toList⟩], "remotes".toList, "RingStatisticItem".toList,
    "10000".toList⟩

/-- The envelope `name: b, type: StatisticItem, value: "abc"`. -/
def badEnvelope : Statistic SampleRaw :=
  ⟨.str "abc".toList, "b".toList, "StatisticItem".toList, []⟩

/-- The envelope that the top-level decoding leaves for the element
`name: 7, type: StatisticItem, value: "1"`: the number does not fit the
string field `name`, which keeps its zero value. -/
def misnamedEnvelope : Statistic SampleRaw :=
  ⟨.str "1".toList, [], "StatisticItem".toList, []⟩

/-! ## Lemmas on strings, loops and the classifier -/

theorem replaceLoop_single (a : Char) (new s : GoString) :
    replaceLoop [a] new 0 s = (s.map (fun c => if c = a then new else [c])).flatten := by
  induction s with
  | nil => simp [replaceLoop]
  | cons c cs ih =>
    by_cases h : c = a
    · subst h
      simp [replaceLoop, List.isPrefixOf, ih]
    · have h2 : ¬ a = c := fun e => h e.symm
      simp [replaceLoop, List.isPrefixOf, ih, h, h2]

theorem ReplaceAll_dash (s : GoString) :
    ReplaceAll s "-".toList "_".toList = dashesToUnderscores s := by
  show replaceLoop [_] _ 0 s = _
  rw [replaceLoop_single]
  induction s with
  | nil => rfl
  | cons c cs ih =>
    by_cases h : c = '-'
    · simp_all [dashesToUnderscores]
    · simp_all [dashesToUnderscores]

theorem ReplaceAll_space (s : GoString) :
    ReplaceAll s " ".toList "".toList = s.filter (fun c => decide (c ≠ ' ')) := by
  show replaceLoop [_] _ 0 s = _
  rw [replaceLoop_single]
  induction s with
  | nil => rfl
  | cons c cs ih =>
    by_cases h : c = ' '
    · simp_all
    · simp_all [List.filter_cons]

theorem formatSimpleStatisticItemName_eq (lower : Char → Char) (s : GoString) :
    formatSimpleStatisticItemName lower s = normalizeSubName lower s := by
  unfold formatSimpleStatisticItemName normalizeSubName
  rw [ReplaceAll_space, ReplaceAll_dash]

theorem dashesToUnderscores_append (a b : GoString) :
    dashesToUnderscores (a ++ b) = dashesToUnderscores a ++ dashesToUnderscores b := by
  simp [dashesToUnderscores]

theorem dashesToUnderscores_idem (s : GoString) :
    dashesToUnderscores (dashesToUnderscores s) = dashesToUnderscores s := by
  induction s with
  | nil => rfl
  | cons c cs ih =>
    simp only [dashesToUnderscores, List.map_cons, List.cons.injEq] at ih ⊢
    refine ⟨?_, ih⟩
    by_cases h : c = '-'
    · subst h; decide
    · simp [h]

theorem dashesToUnderscores_length (s : GoString) :
    (dashesToUnderscores s).length = s.length := by
  simp [dashesToUnderscores]

theorem dashesToUnderscores_fix (s : GoString) :
    dashesToUnderscores s = s ↔ '-' ∉ s := by
  induction s with
  | nil => simp [dashesToUnderscores]
  | cons c cs ih =>
    simp only [dashesToUnderscores, List.map_cons, List.cons.injEq, List.mem_cons, not_or] at ih ⊢
    rw [ih]
    by_cases h : c = '-'
    · subst h; simp
    · have h2 : ¬ '-' = c := fun e => h e.symm
      simp [h, h2]

theorem statisticItem_fqName (n : GoString) :
    (newStatisticItemMetric n).fqName = "pdns_auth_".toList ++ dashesToUnderscores n := by
  simp only [newStatisticItemMetric, ReplaceAll_dash]

theorem mapEntry_fqName (lower : Char → Char) (p s : GoString) :
    (mapEntryDesc lower p s).fqName =
      "pdns_auth_map_".toList ++ (dashesToUnderscores p ++ ("_".toList ++ normalizeSubName lower s)) := by
  simp only [mapEntryDesc, newMapStatisticItemMetric, ReplaceAll_dash, dashesToUnderscores_append,
    formatSimpleStatisticItemName_eq, List.append_assoc]
  have h1 : dashesToUnderscores "_".toList = "_".toList := by decide
  have h2 : dashesToUnderscores (normalizeSubName lower s) = normalizeSubName lower s := by
    unfold normalizeSubName
    exact dashesToUnderscores_idem _
  rw [h1, h2]

/-- Splitting at the first occurrence of a separator is unique. -/
theorem split_at_first {α : Type} (sep : α) (a b x y : List α)
    (ha : sep ∉ a) (hb : sep ∉ b) (h : a ++ sep :: x = b ++ sep :: y) : a = b ∧ x = y := by
  induction a generalizing b with
  | nil =>
    cases b with
    | nil => simpa using h
    | cons d ds =>
      simp only [List.nil_append, List.cons_append, List.cons.injEq] at h
      exact absurd (List.mem_cons.mpr (Or.inl h.1)) hb
  | cons c cs ih =>
    cases b with
    | nil =>
      simp only [List.nil_append, List.cons_append, List.cons.injEq] at h
      exact absurd (List.mem_cons.mpr (Or.inl h.1.symm)) ha
    | cons d ds =>
      simp only [List.cons_append, List.cons.injEq] at h
      have := ih ds (fun m => ha (List.mem_cons_of_mem _ m)) (fun m => hb (List.mem_cons_of_mem _ m)) h.2
      exact ⟨by rw [h.1, this.1], this.2⟩

theorem filter_and_length_le {α : Type} (f g : α → Bool) (l : List α) :
    (l.filter (fun c => f c && g c)).length ≤ (l.filter f).length := by
  induction l with
  | nil => simp
  | cons c cs ih =>
    cases hf : f c <;> cases hg : g c <;> simp [List.filter_cons, hf, hg] <;> omega

theorem dropDashes_eq_iff (l : GoString) :
    dashesToUnderscores (l.filter (fun c => decide (c ≠ ' '))) =
      l.filter (fun c => decide (c ≠ ' ') && decide (c ≠ '-')) ↔ '-' ∉ l := by
  induction l with
  | nil => simp [dashesToUnderscores]
  | cons c cs ih =>
    by_cases hs : c = ' '
    · subst hs
      have : ¬ '-' = ' ' := by decide
      simp only [List.filter_cons, ne_eq, not_true_eq_false, decide_False, Bool.false_and,
        Bool.false_eq_true, if_false, List.mem_cons, this, false_or]
      exact ih
    · by_cases hd : c = '-'
      · subst hd
        constructor
        · intro h
          have h1 := congrArg List.length h
          have h2 := filter_and_length_le (fun c => decide (c ≠ ' ')) (fun c => decide (c ≠ '-')) cs
          simp [List.filter_cons, dashesToUnderscores] at h1
          simp at h2
          omega
        · intro h
          simp at h
      · have hd2 : ¬ '-' = c := fun e => hd e.symm
        simp only [List.filter_cons, ne_eq, hs, not_false_eq_true, decide_True, hd, Bool.and_self,
          if_true, List.mem_cons, hd2, false_or]
        rw [← ih]
        simp [dashesToUnderscores, hd]

theorem Run.skip_andThen {V : Type} (k : Run V) : Run.skip.andThen k = k := by
  cases k; simp [Run.skip, Run.andThen]

theorem Run.andThen_skip {V : Type} (r : Run V) : r.andThen Run.skip = r := by
  rcases r with ⟨s, e⟩
  cases e <;> simp [Run.skip, Run.andThen]

theorem Run.andThen_assoc {V : Type} (a b c : Run V) :
    (a.andThen b).andThen c = a.andThen (b.andThen c) := by
  rcases a with ⟨sa, ea⟩
  rcases b with ⟨sb, eb⟩
  rcases c with ⟨sc, ec⟩
  cases ea <;> cases eb <;> simp [Run.andThen]

theorem forEach_append {α V : Type} (f : α → Run V) (xs ys : List α) :
    forEach f (xs ++ ys) = (forEach f xs).andThen (forEach f ys) := by
  induction xs with
  | nil => simp [forEach, Run.skip_andThen]
  | cons x xs ih => simp [forEach, ih, Run.andThen_assoc]

theorem forEach_map {α β V : Type} (f : β → Run V) (g : α → β) (xs : List α) :
    forEach f (xs.map g) = forEach (fun x => f (g x)) xs := by
  induction xs with
  | nil => rfl
  | cons x xs ih => simp [forEach, ih]

theorem forEach_flatten {α V : Type} (f : α → Run V) (ls : List (List α)) :
    forEach (fun l => forEach f l) ls = forEach f ls.flatten := by
  induction ls with
  | nil => rfl
  | cons l ls ih => simp [forEach, ih, forEach_append]

theorem collectLoops_eq_forEach {Raw Body V : Type} (lib : Runtime Raw Body V) (c : Collections) :
    collectLoops lib c = forEach (emitOne lib) (emissionOrder lib.unicodeToLower c) := by
  unfold collectLoops emissionOrder
  rw [forEach_append, forEach_map, ← forEach_flatten, forEach_map]
  congr 1
  congr 1
  funext m
  rw [forEach_map]
  rfl

/-- One turn of the loop over the work list: a value that does not parse
ends the process in `log.Fatalf`, a name the client rejects ends it in a
panic, and otherwise the counter is sent and the loop goes on. -/
theorem forEach_emitOne_cons {Raw Body V : Type} (lib : Runtime Raw Body V)
    (j : Desc × GoString) (js : List (Desc × GoString)) :
    forEach (emitOne lib) (j :: js) =
      match lib.ParseFloat j.2 with
      | none => ⟨[], Exit.fatal Fatal.parseFloat⟩
      | some v =>
        if lib.validMetricName j.1.fqName = true then
          ⟨⟨j.1, ValueType.CounterValue, v⟩ :: (forEach (emitOne lib) js).sent,
            (forEach (emitOne lib) js).exit⟩
        else ⟨[], Exit.panicked⟩ := by
  cases h : lib.ParseFloat j.2 with
  | none => simp [forEach, emitOne, h, Run.fatal, Run.andThen]
  | some v =>
    by_cases hv : lib.validMetricName j.1.fqName = true
    · simp [forEach, emitOne, h, hv, MustNewConstMetric, Run.sendMust, Run.send, Run.andThen]
    · simp [forEach, emitOne, h, hv, MustNewConstMetric, Run.sendMust, Run.andThen]

/-- The loop over the work list sends the counters of the items before the
first one that does not pass, nothing else. -/
theorem forEach_emitOne_sent {Raw Body V : Type} (lib : Runtime Raw Body V)
    (js : List (Desc × GoString)) :
    (forEach (emitOne lib) js).sent.map (fun m => (m.desc, m.valueType, some m.value)) =
      (js.takeWhile (accepted lib)).map
        (fun j => (j.1, ValueType.CounterValue, lib.ParseFloat j.2)) := by
  induction js with
  | nil => simp [forEach, Run.skip]
  | cons j js ih =>
    rw [forEach_emitOne_cons]
    cases h : lib.ParseFloat j.2 with
    | none => simp [List.takeWhile_cons, accepted, h]
    | some v =>
      by_cases hv : lib.validMetricName j.1.fqName = true
      · simp only [hv, if_true, List.map_cons, List.takeWhile_cons, accepted, h,
          Option.isSome_some, Bool.and_self, ih]
      · simp [List.takeWhile_cons, accepted, h, hv]

/-- The loop over the work list comes to its end when every item passes. -/
theorem forEach_emitOne_returned {Raw Body V : Type} (lib : Runtime Raw Body V)
    (js : List (Desc × GoString)) (hall : ∀ j ∈ js, accepted lib j = true) :
    (forEach (emitOne lib) js).exit = Exit.returned := by
  induction js with
  | nil => rfl
  | cons j js ih =>
    have hj := hall j (List.mem_cons_self _ _)
    simp only [accepted, Bool.and_eq_true, Option.isSome_iff_exists] at hj
    obtain ⟨⟨v, hv⟩, hn⟩ := hj
    rw [forEach_emitOne_cons]
    simp only [hv, hn, if_true]
    exact ih (fun x hx => hall x (List.mem_cons_of_mem _ hx))

/-- The loop over the work list ends the process as soon as one item does
not pass. -/
theorem forEach_emitOne_aborts {Raw Body V : Type} (lib : Runtime Raw Body V)
    (js : List (Desc × GoString)) (hbad : ∃ j ∈ js, accepted lib j = false) :
    (forEach (emitOne lib) js).exit = Exit.fatal Fatal.parseFloat ∨
      (forEach (emitOne lib) js).exit = Exit.panicked := by
  induction js with
  | nil => simp at hbad
  | cons j js ih =>
    rw [forEach_emitOne_cons]
    cases h : lib.ParseFloat j.2 with
    | none => exact Or.inl rfl
    | some v =>
      by_cases hv : lib.validMetricName j.1.fqName = true
      · simp only [hv, if_true]
        apply ih
        obtain ⟨x, hx, hax⟩ := hbad
        rcases List.mem_cons.mp hx with rfl | hx
        · simp [accepted, h, hv] at hax
        · exact ⟨x, hx, hax⟩
      · simp only [hv]
        exact Or.inr rfl

/-- With a value that does not parse in the work list, the loop ends in
`log.Fatalf` exactly when the client accepts the names of all items before
the first such value. -/
theorem forEach_emitOne_fatal_iff {Raw Body V : Type} (lib : Runtime Raw Body V)
    (js : List (Desc × GoString)) (hbad : ∃ j ∈ js, lib.ParseFloat j.2 = none) :
    (forEach (emitOne lib) js).exit = Exit.fatal Fatal.parseFloat ↔
      ∀ j ∈ js.takeWhile (fun j => (lib.ParseFloat j.2).isSome),
        lib.validMetricName j.1.fqName = true := by
  induction js with
  | nil => simp at hbad
  | cons j js ih =>
    rw [forEach_emitOne_cons]
    cases h : lib.ParseFloat j.2 with
    | none => simp [List.takeWhile_cons, h]
    | some v =>
      have hrest : ∃ x ∈ js, lib.ParseFloat x.2 = none := by
        obtain ⟨x, hx, hpx⟩ := hbad
        rcases List.mem_cons.mp hx with rfl | hx
        · rw [h] at hpx; cases hpx
        · exact ⟨x, hx, hpx⟩
      by_cases hv : lib.validMetricName j.1.fqName = true
      · simp only [hv, if_true, List.takeWhile_cons, h, Option.isSome_some, List.mem_cons,
          forall_eq_or_imp, true_and]
        exact ih hrest
      · simp only [hv, List.takeWhile_cons, h, Option.isSome_some, if_true, List.mem_cons,
          forall_eq_or_imp, false_and, iff_false]
        simp

/-- The classifier partitions the envelopes by tag, keeping source order. -/
theorem unmarshallStatistics_eq {Raw Body V : Type} (lib : Runtime Raw Body V)
    (statistics : List (Statistic Raw)) (c : Collections) :
    unmarshallStatistics lib statistics c =
      { statisticItems := c.statisticItems ++
          (statistics.filter (fun s => decide (s.Type_ = "StatisticItem".toList))).map
            (toStatisticItem lib)
        mapStatisticItems := c.mapStatisticItems ++
          (statistics.filter (fun s => decide (s.Type_ = "MapStatisticItem".toList))).map
            (toMapStatisticItem lib)
        ringStatisticItems := c.ringStatisticItems ++
          (statistics.filter (fun s => decide (s.Type_ = "RingStatisticItem".toList))).map
            (toRingStatisticItem lib) } := by
  induction statistics generalizing c with
  | nil => simp [unmarshallStatistics]
  | cons st rest ih =>
    have d1 : ¬ "StatisticItem".toList = "MapStatisticItem".toList := by decide
    have d2 : ¬ "StatisticItem".toList = "RingStatisticItem".toList := by decide
    have d3 : ¬ "MapStatisticItem".toList = "RingStatisticItem".toList := by decide
    rw [unmarshallStatistics, ih]
    unfold unmarshallStatistic
    by_cases h1 : st.Type_ = "StatisticItem".toList
    · have e2 : ¬ st.Type_ = "MapStatisticItem".toList := h1 ▸ d1
      have e3 : ¬ st.Type_ = "RingStatisticItem".toList := h1 ▸ d2
      simp only [if_pos h1, List.filter_cons, decide_eq_true h1, decide_eq_false e2,
        decide_eq_false e3, if_true, Bool.false_eq_true, if_false, List.map_cons,
        List.append_assoc, List.singleton_append, toStatisticItem]
    · by_cases h2 : st.Type_ = "MapStatisticItem".toList
      · have e3 : ¬ st.Type_ = "RingStatisticItem".toList := h2 ▸ d3
        simp only [if_neg h1, if_pos h2, List.filter_cons, decide_eq_false h1, decide_eq_true h2,
          decide_eq_false e3, if_true, Bool.false_eq_true, if_false, List.map_cons,
          List.append_assoc, List.singleton_append, toMapStatisticItem]
      · by_cases h3 : st.Type_ = "RingStatisticItem".toList
        · simp only [if_neg h1, if_neg h2, if_pos h3, List.filter_cons, decide_eq_false h1,
            decide_eq_false h2, decide_eq_true h3, if_true, Bool.false_eq_true, if_false,
            List.map_cons, List.append_assoc, List.singleton_append, toRingStatisticItem]
        · simp only [if_neg h1, if_neg h2, if_neg h3, List.filter_cons, decide_eq_false h1,
            decide_eq_false h2, decide_eq_false h3, Bool.false_eq_true, if_false]

/-- Envelopes that a predicate `keep` may drop without touching the scalar
and map envelopes do not change what is emitted. -/
theorem collectStatistics_filter {Raw Body V : Type} (lib : Runtime Raw Body V)
    (keep : Statistic Raw → Bool) (statistics : List (Statistic Raw))
    (h1 : ∀ s : Statistic Raw, s.Type_ = "StatisticItem".toList → keep s = true)
    (h2 : ∀ s : Statistic Raw, s.Type_ = "MapStatisticItem".toList → keep s = true) :
    collectStatistics lib (statistics.filter keep) = collectStatistics lib statistics := by
  have e1 : (statistics.filter keep).filter (fun s => decide (s.Type_ = "StatisticItem".toList)) =
      statistics.filter (fun s => decide (s.Type_ = "StatisticItem".toList)) := by
    rw [List.filter_filter]
    congr 1
    funext s
    by_cases h : s.Type_ = "StatisticItem".toList
    · simp only [decide_eq_true h, h1 s h, Bool.and_self, Bool.true_and]
    · simp only [decide_eq_false h, Bool.and_false, Bool.false_and]
  have e2 : (statistics.filter keep).filter (fun s => decide (s.Type_ = "MapStatisticItem".toList)) =
      statistics.filter (fun s => decide (s.Type_ = "MapStatisticItem".toList)) := by
    rw [List.filter_filter]
    congr 1
    funext s
    by_cases h : s.Type_ = "MapStatisticItem".toList
    · simp only [decide_eq_true h, h2 s h, Bool.and_self, Bool.true_and]
    · simp only [decide_eq_false h, Bool.and_false, Bool.false_and]
  simp only [collectStatistics, classify, collectLoops, unmarshallStatistics_eq, e1, e2]

theorem emissionOrder_length (lower : Char → Char) (c : Collections) :
    (emissionOrder lower c).length =
      c.statisticItems.length + (c.mapStatisticItems.map (fun m => m.Value.length)).sum := by
  simp only [emissionOrder, List.length_append, List.length_map, List.length_flatten, List.map_map]
  congr 2
  apply List.map_congr_left
  intro m _
  simp

/-- On a string of ASCII bytes `strings.ToLower` does not consult the
Unicode tables. -/
theorem ToLower_of_ascii (lower : Char → Char) (s : GoString)
    (h : s.all (fun c => decide (c.toNat < 128)) = true) :
    ToLower lower s = s.map asciiToLower := by
  unfold ToLower
  rw [if_pos h]

/-- Dropping envelopes other than those of the three known tags does not
change what the classifier produces. -/
theorem unmarshallStatistics_filter {Raw Body V : Type} (lib : Runtime Raw Body V)
    (keep : Statistic Raw → Bool) (statistics : List (Statistic Raw)) (c : Collections)
    (h1 : ∀ s : Statistic Raw, s.Type_ = "StatisticItem".toList → keep s = true)
    (h2 : ∀ s : Statistic Raw, s.Type_ = "MapStatisticItem".toList → keep s = true)
    (h3 : ∀ s : Statistic Raw, s.Type_ = "RingStatisticItem".toList → keep s = true) :
    unmarshallStatistics lib (statistics.filter keep) c = unmarshallStatistics lib statistics c := by
  have key : ∀ t : GoString, (∀ s : Statistic Raw, s.Type_ = t → keep s = true) →
      (statistics.filter keep).filter (fun s => decide (s.Type_ = t)) =
        statistics.filter (fun s => decide (s.Type_ = t)) := by
    intro t ht
    rw [List.filter_filter]
    congr 1
    funext s
    by_cases h : s.Type_ = t
    · simp only [decide_eq_true h, ht s h, Bool.and_self]
    · simp only [decide_eq_false h, Bool.false_and]
  simp only [unmarshallStatistics_eq, key _ h1, key _ h2, key _ h3]

theorem isKnownType_eq_false (t : GoString) (h : isKnownType t = false) :
    ¬ t = "StatisticItem".toList ∧ ¬ t = "MapStatisticItem".toList ∧
      ¬ t = "RingStatisticItem".toList := by
  simp only [isKnownType, Bool.or_eq_false_iff, decide_eq_false_iff_not] at h
  exact ⟨h.1.1, h.1.2, h.2⟩

theorem isKnownType_of_tag (t : GoString)
    (h : t = "StatisticItem".toList ∨ t = "MapStatisticItem".toList ∨
      t = "RingStatisticItem".toList) : isKnownType t = true := by
  rcases h with h | h | h <;> subst h <;> decide

/-- A single `StatisticItem` envelope: `Collect` parses its value and sends
its counter, or ends the process. -/
theorem collectStatistics_single {Raw Body V : Type} (lib : Runtime Raw Body V)
    (e : Statistic Raw) (h : e.Type_ = "StatisticItem".toList) :
    collectStatistics lib [e] = collectStatisticItem lib (toStatisticItem lib e) := by
  simp only [collectStatistics, classify, unmarshallStatistics, unmarshallStatistic, if_pos h,
    collectLoops, forEach, List.nil_append, Run.andThen_skip, toStatisticItem]

/-- The loop over the work list sends fewer metrics than there are items as
soon as one value does not parse. -/
theorem takeWhile_length_lt {α : Type} (p : α → Bool) (l : List α)
    (h : ∃ x ∈ l, p x = false) : (l.takeWhile p).length < l.length := by
  induction l with
  | nil => simp at h
  | cons a l ih =>
    cases hp : p a with
    | false => simp [List.takeWhile_cons, hp]
    | true =>
      obtain ⟨x, hx, hpx⟩ := h
      rcases List.mem_cons.mp hx with rfl | hx
      · rw [hp] at hpx; cases hpx
      · have := ih ⟨x, hx, hpx⟩
        simp only [List.takeWhile_cons, hp, if_true, List.length_cons]
        omega

theorem statisticItem_eq_mapEntry_iff (lower : Char → Char) (n p s : GoString) :
    (newStatisticItemMetric n).fqName = (mapEntryDesc lower p s).fqName ↔
      dashesToUnderscores n =
        "map_".toList ++ (dashesToUnderscores p ++ ("_".toList ++ normalizeSubName lower s)) := by
  rw [statisticItem_fqName, mapEntry_fqName]
  have hp : "pdns_auth_map_".toList = "pdns_auth_".toList ++ "map_".toList := by decide
  rw [hp, List.append_assoc]
  exact List.append_right_inj _

theorem mapEntry_eq_iff (lower : Char → Char) (p1 s1 p2 s2 : GoString) :
    (mapEntryDesc lower p1 s1).fqName = (mapEntryDesc lower p2 s2).fqName ↔
      dashesToUnderscores p1 ++ ("_".toList ++ normalizeSubName lower s1) =
        dashesToUnderscores p2 ++ ("_".toList ++ normalizeSubName lower s2) := by
  rw [mapEntry_fqName, mapEntry_fqName]
  exact List.append_right_inj _

/-! ## The claims -/

/-- C1 as stated fails: the values of the scalar record `Up Time` and of the
sub-entry `10.0.0.1` of the map record `remotes` both parse, yet with a
client that checks metric names as the clients of the time of the program do,
`MustNewConstMetric` panics on the name `pdns_auth_Up Time`: no metric is
sent, where the claim counts two, and the loops do not return. -/
theorem unnameable_records_panic :
    (∀ it ∈ unnameableCollections.statisticItems,
      (sampleRuntime.ParseFloat it.Value).isSome = true) ∧
    (∀ m ∈ unnameableCollections.mapStatisticItems, ∀ e ∈ m.Value,
      (sampleRuntime.ParseFloat e.Value).isSome = true) ∧
    unnameableCollections.statisticItems.length +
      (unnameableCollections.mapStatisticItems.map (fun m => m.Value.length)).sum = 2 ∧
    (newStatisticItemMetric "Up Time".toList).fqName = "pdns_auth_Up Time".toList ∧
    legacyValidMetricName "pdns_auth_Up Time".toList = false ∧
    (collectLoops sampleRuntime unnameableCollections : Run Nat) = ⟨[], Exit.panicked⟩ := by
  decide

/-- C1, amended: on classified records in which every scalar value and every
map sub-entry value parses and every metric name built for them is accepted
by the check of the Prometheus client, the loops of `Collect` run to their
end and send exactly `len(scalars) + sum of the sub-entry counts` metrics:
one per scalar record in source order, then one per sub-entry of each map
record in source order; each metric has kind Counter and carries the value
parsed from the string of its own record. The ring records play no part. -/
theorem collect_emits_every_record {Raw Body V : Type} (lib : Runtime Raw Body V) (c : Collections)
    (hs : ∀ it ∈ c.statisticItems, (lib.ParseFloat it.Value).isSome = true)
    (hm : ∀ m ∈ c.mapStatisticItems, ∀ e ∈ m.Value, (lib.ParseFloat e.Value).isSome = true)
    (hsn : ∀ it ∈ c.statisticItems,
      lib.validMetricName (newStatisticItemMetric it.Name).fqName = true)
    (hmn : ∀ m ∈ c.mapStatisticItems, ∀ e ∈ m.Value,
      lib.validMetricName (mapEntryDesc lib.unicodeToLower m.Name e.Name).fqName = true) :
    (collectLoops lib c).exit = Exit.returned ∧
    (collectLoops lib c).sent.length =
      c.statisticItems.length + (c.mapStatisticItems.map (fun m => m.Value.length)).sum ∧
    (collectLoops lib c).sent.map (fun m => (m.desc, some m.value)) =
      c.statisticItems.map (fun it => (newStatisticItemMetric it.Name, lib.ParseFloat it.Value)) ++
        (c.mapStatisticItems.map (fun m => m.Value.map (fun e =>
          (mapEntryDesc lib.unicodeToLower m.Name e.Name, lib.ParseFloat e.Value)))).flatten ∧
    ∀ m ∈ (collectLoops lib c).sent, m.valueType = ValueType.CounterValue := by
  have hall : ∀ j ∈ emissionOrder lib.unicodeToLower c, accepted lib j = true := by
    intro j hj
    simp only [emissionOrder, List.mem_append, List.mem_map, List.mem_flatten] at hj
    rcases hj with ⟨it, hit, rfl⟩ | ⟨l, ⟨m, hm1, rfl⟩, hj⟩
    · simp only [accepted, hs it hit, hsn it hit, Bool.and_self]
    · simp only [List.mem_map] at hj
      obtain ⟨e, he, rfl⟩ := hj
      simp only [accepted, hm m hm1 e he, hmn m hm1 e he, Bool.and_self]
  have h1 := forEach_emitOne_sent lib (emissionOrder lib.unicodeToLower c)
  have h2 := forEach_emitOne_returned lib (emissionOrder lib.unicodeToLower c) hall
  rw [← collectLoops_eq_forEach] at h1 h2
  rw [List.takeWhile_eq_self_iff.mpr hall] at h1
  refine ⟨h2, ?_, ?_, ?_⟩
  · have := congrArg List.length h1
    simp only [List.length_map] at this
    rw [this, emissionOrder_length]
  · have := congrArg (List.map (fun t : Desc × ValueType × Option V => (t.1, t.2.2))) h1
    simp only [List.map_map] at this
    refine Eq.trans this ?_
    simp only [emissionOrder, List.map_append, List.map_map, List.map_flatten]
    congr 2
    apply List.map_congr_left
    intro m _
    simp [Function.comp_def]
  · intro m hm
    have hmem : (m.desc, m.valueType, some m.value) ∈
        (collectLoops lib c).sent.map (fun m => (m.desc, m.valueType, some m.value)) :=
      List.mem_map.mpr ⟨m, hm, rfl⟩
    rw [h1] at hmem
    obtain ⟨j, _, hj⟩ := List.mem_map.mp hmem
    simp only [Prod.mk.injEq] at hj
    exact hj.2.1.symm

/-- C1 amended, a concrete run: one scalar record, one map record with one
sub-entry and one ring record give two counters, the scalar one first. -/
theorem collect_emits_every_record_witness :
    (collectLoops sampleRuntime sampleCollections).exit = Exit.returned ∧
    (collectLoops sampleRuntime sampleCollections).sent.length =
      sampleCollections.statisticItems.length +
        (sampleCollections.mapStatisticItems.map (fun m => m.Value.length)).sum ∧
    (collectLoops sampleRuntime sampleCollections).sent.map (fun m => (m.desc, some m.value)) =
      sampleCollections.statisticItems.map
          (fun it => (newStatisticItemMetric it.Name, sampleRuntime.ParseFloat it.Value)) ++
        (sampleCollections.mapStatisticItems.map (fun m => m.Value.map (fun e =>
          (mapEntryDesc sampleRuntime.unicodeToLower m.Name e.Name,
            sampleRuntime.ParseFloat e.Value)))).flatten ∧
    ∀ m ∈ (collectLoops sampleRuntime sampleCollections).sent,
      m.valueType = ValueType.CounterValue :=
  collect_emits_every_record sampleRuntime sampleCollections (by decide) (by decide)
    (by decide) (by decide)

/-- C2: the metric name that `newStatisticItemMetric` builds for a scalar
record name `n` is `"pdns_auth_"` followed by `n` in which every `-` is
replaced by `_` and every other rune is left as it is; the name `"uptime"`
gives `"pdns_auth_uptime"`. -/
theorem scalar_metric_name (n : GoString) :
    (newStatisticItemMetric n).fqName =
      "pdns_auth_".toList ++ n.map (fun c => if c = '-' then '_' else c) ∧
    (newStatisticItemMetric "uptime".toList).fqName = "pdns_auth_uptime".toList :=
  ⟨statisticItem_fqName n, by decide⟩

/-- C3: the metric name that `Collect` builds for the sub-entry `s` of the
map record `p` is `"pdns_auth_map_" ++ N(p) ++ "_" ++ F(s)`, where `N`
replaces every `-` by `_` and `F` lower-cases, deletes every space and
replaces every `-` by `_`; `("query-types", "A Record")` gives
`"pdns_auth_map_query_types_arecord"`. -/
theorem map_metric_name (lower : Char → Char) (p s : GoString) :
    (mapEntryDesc lower p s).fqName =
      "pdns_auth_map_".toList ++ p.map (fun c => if c = '-' then '_' else c) ++ "_".toList ++
        ((ToLower lower s).filter (fun c => decide (c ≠ ' '))).map
          (fun c => if c = '-' then '_' else c) ∧
    (mapEntryDesc lower "query-types".toList "A Record".toList).fqName =
      "pdns_auth_map_query_types_arecord".toList := by
  constructor
  · rw [mapEntry_fqName]
    simp only [normalizeSubName, dashesToUnderscores, List.append_assoc]
  · rw [mapEntry_fqName, normalizeSubName, ToLower_of_ascii lower _ (by decide)]
    decide

/-- C4: an envelope whose type is none of `StatisticItem`,
`MapStatisticItem`, `RingStatisticItem` (the empty type included) leaves the
three collections as they are, so the classifier and `Collect` behave on an
envelope list as on the list without such envelopes; a list of only such
envelopes gives three empty collections and a run that sends nothing and
returns; a `FutureItem` envelope before or after a `StatisticItem` envelope
gives the run of the `StatisticItem` envelope alone, which is the parsing
and sending of its one metric. -/
theorem unknown_types_are_ignored {Raw Body V : Type} (lib : Runtime Raw Body V)
    (statistics : List (Statistic Raw)) :
    (∀ (c : Collections) (s : Statistic Raw), isKnownType s.Type_ = false →
      unmarshallStatistic lib c s = c) ∧
    (∀ c : Collections,
      unmarshallStatistics lib (statistics.filter (fun s => isKnownType s.Type_)) c =
        unmarshallStatistics lib statistics c) ∧
    collectStatistics lib (statistics.filter (fun s => isKnownType s.Type_)) =
      (collectStatistics lib statistics : Run V) ∧
    ((∀ s ∈ statistics, isKnownType s.Type_ = false) →
      classify lib statistics = ⟨[], [], []⟩ ∧
        (collectStatistics lib statistics : Run V) = ⟨[], Exit.returned⟩) ∧
    (∀ e f : Statistic Raw, e.Type_ = "StatisticItem".toList → f.Type_ = "FutureItem".toList →
      (collectStatistics lib [f, e] : Run V) = collectStatisticItem lib (toStatisticItem lib e) ∧
      (collectStatistics lib [e, f] : Run V) = collectStatisticItem lib (toStatisticItem lib e)) := by
  have k1 : ∀ s : Statistic Raw, s.Type_ = "StatisticItem".toList → isKnownType s.Type_ = true :=
    fun s h => isKnownType_of_tag _ (Or.inl h)
  have k2 : ∀ s : Statistic Raw, s.Type_ = "MapStatisticItem".toList → isKnownType s.Type_ = true :=
    fun s h => isKnownType_of_tag _ (Or.inr (Or.inl h))
  have k3 : ∀ s : Statistic Raw, s.Type_ = "RingStatisticItem".toList → isKnownType s.Type_ = true :=
    fun s h => isKnownType_of_tag _ (Or.inr (Or.inr h))
  have hfut : isKnownType "FutureItem".toList = false := by decide
  refine ⟨?_, ?_, ?_, ?_, ?_⟩
  · intro c s h
    obtain ⟨n1, n2, n3⟩ := isKnownType_eq_false _ h
    simp only [unmarshallStatistic, if_neg n1, if_neg n2, if_neg n3]
  · intro c
    exact unmarshallStatistics_filter lib _ statistics c k1 k2 k3
  · exact collectStatistics_filter lib _ statistics k1 k2
  · intro h
    have hnil : statistics.filter (fun s => isKnownType s.Type_) = [] := by
      rw [List.filter_eq_nil_iff]
      intro s hs
      rw [h s hs]
      exact Bool.false_ne_true
    constructor
    · have := unmarshallStatistics_filter lib (fun s => isKnownType s.Type_) statistics
        ⟨[], [], []⟩ k1 k2 k3
      rw [hnil] at this
      exact this.symm
    · have := collectStatistics_filter (V := V) lib (fun s => isKnownType s.Type_) statistics k1 k2
      rw [hnil] at this
      exact this.symm
  · intro e f he hf
    have hf2 : isKnownType f.Type_ = false := by rw [hf]; exact hfut
    have he2 : isKnownType e.Type_ = true := k1 e he
    constructor
    · have := collectStatistics_filter (V := V) lib (fun s => isKnownType s.Type_) [f, e] k1 k2
      simp only [List.filter_cons, hf2, he2, List.filter_nil, if_true, Bool.false_eq_true,
        if_false] at this
      rw [← this, collectStatistics_single lib e he]
    · have := collectStatistics_filter (V := V) lib (fun s => isKnownType s.Type_) [e, f] k1 k2
      simp only [List.filter_cons, hf2, he2, List.filter_nil, if_true, Bool.false_eq_true,
        if_false] at this
      rw [← this, collectStatistics_single lib e he]

/-- C4, concrete runs: two envelopes of unknown type give empty collections
and no metric; `FutureItem` next to `uptime` gives the run of `uptime`. -/
theorem unknown_types_are_ignored_witness :
    (classify sampleRuntime [futureEnvelope, untypedEnvelope] = ⟨[], [], []⟩ ∧
      (collectStatistics sampleRuntime [futureEnvelope, untypedEnvelope] : Run Nat) =
        ⟨[], Exit.returned⟩) ∧
    ((collectStatistics sampleRuntime [futureEnvelope, uptimeEnvelope] : Run Nat) =
        collectStatisticItem sampleRuntime (toStatisticItem sampleRuntime uptimeEnvelope) ∧
      (collectStatistics sampleRuntime [uptimeEnvelope, futureEnvelope] : Run Nat) =
        collectStatisticItem sampleRuntime (toStatisticItem sampleRuntime uptimeEnvelope)) :=
  ⟨(unknown_types_are_ignored sampleRuntime [futureEnvelope, untypedEnvelope]).2.2.2.1
      (by decide),
    (unknown_types_are_ignored sampleRuntime []).2.2.2.2 uptimeEnvelope futureEnvelope
      (by decide) (by decide)⟩

/-- C5: `RingStatisticItem` envelopes are decoded into ring records, in
source order and with no error path, and contribute nothing to the run of
`Collect`: the metrics sent and the way the cycle ends are those of the list
without the ring envelopes, whatever the ring sub-entry values are; a list of
only ring envelopes sends no metric and the cycle returns. -/
theorem ring_records_emit_nothing {Raw Body V : Type} (lib : Runtime Raw Body V)
    (statistics : List (Statistic Raw)) :
    (classify lib statistics).ringStatisticItems =
      (statistics.filter (fun s => decide (s.Type_ = "RingStatisticItem".toList))).map
        (toRingStatisticItem lib) ∧
    collectStatistics lib
        (statistics.filter (fun s => !decide (s.Type_ = "RingStatisticItem".toList))) =
      (collectStatistics lib statistics : Run V) ∧
    ((∀ s ∈ statistics, s.Type_ = "RingStatisticItem".toList) →
      (collectStatistics lib statistics : Run V) = ⟨[], Exit.returned⟩) := by
  have d2 : ¬ "StatisticItem".toList = "RingStatisticItem".toList := by decide
  have d3 : ¬ "MapStatisticItem".toList = "RingStatisticItem".toList := by decide
  have k1 : ∀ s : Statistic Raw, s.Type_ = "StatisticItem".toList →
      (!decide (s.Type_ = "RingStatisticItem".toList)) = true := by
    intro s h
    have : ¬ s.Type_ = "RingStatisticItem".toList := h ▸ d2
    simp only [decide_eq_false this, Bool.not_false]
  have k2 : ∀ s : Statistic Raw, s.Type_ = "MapStatisticItem".toList →
      (!decide (s.Type_ = "RingStatisticItem".toList)) = true := by
    intro s h
    have : ¬ s.Type_ = "RingStatisticItem".toList := h ▸ d3
    simp only [decide_eq_false this, Bool.not_false]
  refine ⟨?_, collectStatistics_filter lib _ statistics k1 k2, ?_⟩
  · simp only [classify, unmarshallStatistics_eq, List.nil_append]
  · intro h
    have hnil : statistics.filter (fun s => !decide (s.Type_ = "RingStatisticItem".toList)) = [] := by
      rw [List.filter_eq_nil_iff]
      intro s hs
      simp only [decide_eq_true (h s hs), Bool.not_true, Bool.false_eq_true, not_false_eq_true]
    have := collectStatistics_filter (V := V) lib _ statistics k1 k2
    rw [hnil] at this
    exact this.symm

/-- C5, a concrete run: a list of two ring envelopes with a non-numeric
sub-entry value sends no metric and the cycle returns. -/
theorem ring_records_emit_nothing_witness :
    (collectStatistics sampleRuntime [ringEnvelope, ringEnvelope] : Run Nat) =
      ⟨[], Exit.returned⟩ :=
  (ring_records_emit_nothing sampleRuntime [ringEnvelope, ringEnvelope]).2.2 (by decide)

/-- C6 as stated fails: with the valid scalar envelope `uptime` before the
scalar envelope `b` of value `"abc"`, the cycle ends in the parse failure,
but the counter of `uptime` has been sent by then. -/
theorem parse_failure_keeps_earlier_metrics :
    sampleRuntime.ParseFloat (toStatisticItem sampleRuntime badEnvelope).Value = none ∧
    (collectStatistics sampleRuntime [uptimeEnvelope, badEnvelope] : Run Nat) =
      ⟨[⟨⟨"pdns_auth_uptime".toList, "See PowerDNS statistic 'uptime'.".toList⟩,
          ValueType.CounterValue, 12345⟩],
        Exit.fatal Fatal.parseFloat⟩ ∧
    (collectStatistics sampleRuntime [uptimeEnvelope, badEnvelope] : Run Nat).sent ≠ [] := by
  decide

/-- C6, amended: when at least one `StatisticItem` value or one
`MapStatisticItem` sub-entry value of the classified envelopes does not
parse, the cycle does not return: it ends at the first record in emission
order whose value does not parse (the parse failure) or whose metric name the
client rejects (the panic of `MustNewConstMetric`), and it ends in the parse
failure exactly when the client accepts the names of all records before the
first value that does not parse. The metrics sent by then are exactly the
counters of the records before that first record, so fewer than one per
record: no record is skipped and nothing is sent for that record or after
it. -/
theorem parse_failure_aborts {Raw Body V : Type} (lib : Runtime Raw Body V)
    (statistics : List (Statistic Raw))
    (h : (∃ it ∈ (classify lib statistics).statisticItems, lib.ParseFloat it.Value = none) ∨
      (∃ m ∈ (classify lib statistics).mapStatisticItems, ∃ e ∈ m.Value,
        lib.ParseFloat e.Value = none)) :
    ((collectStatistics lib statistics).exit = Exit.fatal Fatal.parseFloat ∨
      (collectStatistics lib statistics).exit = Exit.panicked) ∧
    ((collectStatistics lib statistics).exit = Exit.fatal Fatal.parseFloat ↔
      ∀ j ∈ (emissionOrder lib.unicodeToLower (classify lib statistics)).takeWhile
          (fun j => (lib.ParseFloat j.2).isSome),
        lib.validMetricName j.1.fqName = true) ∧
    (collectStatistics lib statistics).sent.map (fun m => (m.desc, m.valueType, some m.value)) =
      ((emissionOrder lib.unicodeToLower (classify lib statistics)).takeWhile
        (fun j => (lib.ParseFloat j.2).isSome && lib.validMetricName j.1.fqName)).map
          (fun j => (j.1, ValueType.CounterValue, lib.ParseFloat j.2)) ∧
    (collectStatistics lib statistics).sent.length <
      (classify lib statistics).statisticItems.length +
        ((classify lib statistics).mapStatisticItems.map (fun m => m.Value.length)).sum := by
  have hbad : ∃ j ∈ emissionOrder lib.unicodeToLower (classify lib statistics),
      lib.ParseFloat j.2 = none := by
    rcases h with ⟨it, hit, hv⟩ | ⟨m, hm, e, he, hv⟩
    · refine ⟨(newStatisticItemMetric it.Name, it.Value), ?_, hv⟩
      simp only [emissionOrder, List.mem_append, List.mem_map]
      exact Or.inl ⟨it, hit, rfl⟩
    · refine ⟨(mapEntryDesc lib.unicodeToLower m.Name e.Name, e.Value), ?_, hv⟩
      simp only [emissionOrder, List.mem_append, List.mem_flatten, List.mem_map]
      exact Or.inr ⟨_, ⟨m, hm, rfl⟩, List.mem_map.mpr ⟨e, he, rfl⟩⟩
  have hrej : ∃ j ∈ emissionOrder lib.unicodeToLower (classify lib statistics),
      accepted lib j = false := by
    obtain ⟨j, hj, hv⟩ := hbad
    exact ⟨j, hj, by simp [accepted, hv]⟩
  have h1 := forEach_emitOne_sent lib (emissionOrder lib.unicodeToLower (classify lib statistics))
  have h2 := forEach_emitOne_aborts lib _ hrej
  have h3 := forEach_emitOne_fatal_iff lib _ hbad
  rw [← collectLoops_eq_forEach] at h1 h2 h3
  refine ⟨h2, h3, h1, ?_⟩
  have hlen := congrArg List.length h1
  simp only [List.length_map] at hlen
  have hlt := takeWhile_length_lt _ _ hrej
  rw [emissionOrder_length] at hlt
  show (collectLoops lib (classify lib statistics)).sent.length < _
  omega

/-- C6 amended, a concrete run: `uptime` followed by the scalar envelope of
value `"abc"`. -/
theorem parse_failure_aborts_witness :
    ((collectStatistics sampleRuntime [uptimeEnvelope, badEnvelope] : Run Nat).exit =
        Exit.fatal Fatal.parseFloat ∨
      (collectStatistics sampleRuntime [uptimeEnvelope, badEnvelope] : Run Nat).exit =
        Exit.panicked) ∧
    ((collectStatistics sampleRuntime [uptimeEnvelope, badEnvelope] : Run Nat).exit =
        Exit.fatal Fatal.parseFloat ↔
      ∀ j ∈ (emissionOrder sampleRuntime.unicodeToLower
          (classify sampleRuntime [uptimeEnvelope, badEnvelope])).takeWhile
            (fun j => (sampleRuntime.ParseFloat j.2).isSome),
        sampleRuntime.validMetricName j.1.fqName = true) ∧
    (collectStatistics sampleRuntime [uptimeEnvelope, badEnvelope] : Run Nat).sent.map
        (fun m => (m.desc, m.valueType, some m.value)) =
      ((emissionOrder sampleRuntime.unicodeToLower
          (classify sampleRuntime [uptimeEnvelope, badEnvelope])).takeWhile
        (fun j => (sampleRuntime.ParseFloat j.2).isSome &&
          sampleRuntime.validMetricName j.1.fqName)).map
          (fun j => (j.1, ValueType.CounterValue, sampleRuntime.ParseFloat j.2)) ∧
    (collectStatistics sampleRuntime [uptimeEnvelope, badEnvelope] : Run Nat).sent.length <
      (classify sampleRuntime [uptimeEnvelope, badEnvelope]).statisticItems.length +
        ((classify sampleRuntime [uptimeEnvelope, badEnvelope]).mapStatisticItems.map
          (fun m => m.Value.length)).sum :=
  parse_failure_aborts sampleRuntime [uptimeEnvelope, badEnvelope]
    (Or.inl ⟨toStatisticItem sampleRuntime badEnvelope, by decide, by decide⟩)

/-- C7 fails on the code: `Collect` goes on with whatever envelopes the
top-level decoding left, whether or not it reported an error. For a body
whose decoding fails with the envelopes `uptime` and `misnamedEnvelope` left
behind, the cycle returns and two counters have been sent. -/
theorem decode_failure_is_not_propagated :
    (∀ (Raw Body V : Type) (lib : Runtime Raw Body V) (body : Body),
      (Collect lib (Fetch.content body) : Run V) =
        collectStatistics lib (lib.jsonStatistics body).1) ∧
    (sampleRuntime.jsonStatistics ([uptimeEnvelope, misnamedEnvelope], true)).2 = true ∧
    (Collect sampleRuntime (Fetch.content ([uptimeEnvelope, misnamedEnvelope], true)) : Run Nat) =
      ⟨[⟨⟨"pdns_auth_uptime".toList, "See PowerDNS statistic 'uptime'.".toList⟩,
          ValueType.CounterValue, 12345⟩,
        ⟨⟨"pdns_auth_".toList, "See PowerDNS statistic ''.".toList⟩,
          ValueType.CounterValue, 1⟩],
        Exit.returned⟩ := by
  refine ⟨fun _ _ _ _ _ => rfl, by decide, by decide⟩

/-- C8 as stated fails: the scalar record named `map_x_y` and the sub-entry
`y` of the map record `x` get the same metric name `pdns_auth_map_x_y`,
because the map namespace `pdns_auth_map_` starts with the scalar namespace
`pdns_auth_`. -/
theorem scalar_and_map_names_collide :
    (newStatisticItemMetric "map_x_y".toList).fqName = "pdns_auth_map_x_y".toList ∧
    (∀ lower : Char → Char,
      (mapEntryDesc lower "x".toList "y".toList).fqName = "pdns_auth_map_x_y".toList) := by
  refine ⟨by decide, fun lower => ?_⟩
  rw [mapEntry_fqName, normalizeSubName, ToLower_of_ascii lower _ (by decide)]
  decide

/-- C8, amended: the metric name of the scalar record `n` equals the metric
name of the sub-entry `(p, s)` exactly when `N(n)` is
`"map_" ++ N(p) ++ "_" ++ F(s)`; so the two names differ whenever `N(n)` does
not start with `map_`, that is whenever `n` starts with neither `map_` nor
`map-`. -/
theorem scalar_name_vs_map_name (lower : Char → Char) (n p s : GoString) :
    ((newStatisticItemMetric n).fqName = (mapEntryDesc lower p s).fqName ↔
      dashesToUnderscores n =
        "map_".toList ++ (dashesToUnderscores p ++ ("_".toList ++ normalizeSubName lower s))) ∧
    (¬ "map_".toList <+: dashesToUnderscores n →
      (newStatisticItemMetric n).fqName ≠ (mapEntryDesc lower p s).fqName) := by
  refine ⟨statisticItem_eq_mapEntry_iff lower n p s, fun hpre heq => hpre ?_⟩
  rw [(statisticItem_eq_mapEntry_iff lower n p s).mp heq]
  exact List.prefix_append _ _

/-- C8 amended, a concrete case: the scalar record `uptime` and the
sub-entry `A Record` of the map record `query-types`. -/
theorem scalar_name_vs_map_name_witness :
    (newStatisticItemMetric "uptime".toList).fqName ≠
      (mapEntryDesc (fun c => c) "query-types".toList "A Record".toList).fqName :=
  (scalar_name_vs_map_name (fun c => c) "uptime".toList "query-types".toList
    "A Record".toList).2 (by decide)

/-- C9 as stated fails: the pairs `(a, b_c)` and `(a_b, c)` are different and
get the same metric name, and so do, under one parent, the sub-entries `A B`
and `ab`. -/
theorem map_names_collide :
    ("a".toList, "b_c".toList) ≠ ("a_b".toList, "c".toList) ∧
    (∀ lower : Char → Char, (mapEntryDesc lower "a".toList "b_c".toList).fqName =
      (mapEntryDesc lower "a_b".toList "c".toList).fqName) ∧
    ("x".toList, "A B".toList) ≠ ("x".toList, "ab".toList) ∧
    (∀ lower : Char → Char, (mapEntryDesc lower "x".toList "A B".toList).fqName =
      (mapEntryDesc lower "x".toList "ab".toList).fqName) := by
  refine ⟨by decide, fun lower => ?_, by decide, fun lower => ?_⟩
  · rw [mapEntry_eq_iff, normalizeSubName, normalizeSubName,
      ToLower_of_ascii lower "b_c".toList (by decide), ToLower_of_ascii lower "c".toList (by decide)]
    decide
  · rw [mapEntry_eq_iff, normalizeSubName, normalizeSubName,
      ToLower_of_ascii lower "A B".toList (by decide), ToLower_of_ascii lower "ab".toList (by decide)]
    decide

/-- C9, amended: two pairs get the same map metric name exactly when
`N(p1) ++ "_" ++ F(s1) = N(p2) ++ "_" ++ F(s2)`; for parent names that
contain neither `-` nor `_` this is exactly when the parents are equal and
the normalized sub-entry names `F(s1)`, `F(s2)` are equal. -/
theorem map_name_eq_iff (lower : Char → Char) (p1 s1 p2 s2 : GoString) :
    ((mapEntryDesc lower p1 s1).fqName = (mapEntryDesc lower p2 s2).fqName ↔
      dashesToUnderscores p1 ++ ("_".toList ++ normalizeSubName lower s1) =
        dashesToUnderscores p2 ++ ("_".toList ++ normalizeSubName lower s2)) ∧
    ('-' ∉ p1 ∧ '_' ∉ p1 ∧ '-' ∉ p2 ∧ '_' ∉ p2 →
      ((mapEntryDesc lower p1 s1).fqName = (mapEntryDesc lower p2 s2).fqName ↔
        p1 = p2 ∧ normalizeSubName lower s1 = normalizeSubName lower s2)) := by
  refine ⟨mapEntry_eq_iff lower p1 s1 p2 s2, ?_⟩
  rintro ⟨hd1, hu1, hd2, hu2⟩
  rw [mapEntry_eq_iff, (dashesToUnderscores_fix p1).mpr hd1, (dashesToUnderscores_fix p2).mpr hd2]
  constructor
  · intro h
    exact split_at_first '_' p1 p2 _ _ hu1 hu2 h
  · rintro ⟨rfl, h⟩
    rw [h]

/-- C9 amended, a concrete case: under the parents `queries` and `answers`
the sub-entry `A Record` gets two different names. -/
theorem map_name_eq_iff_witness :
    ((mapEntryDesc (fun c => c) "queries".toList "A Record".toList).fqName =
        (mapEntryDesc (fun c => c) "answers".toList "A Record".toList).fqName ↔
      "queries".toList = "answers".toList ∧
        normalizeSubName (fun c => c) "A Record".toList =
          normalizeSubName (fun c => c) "A Record".toList) :=
  (map_name_eq_iff (fun c => c) "queries".toList "A Record".toList "answers".toList
    "A Record".toList).2 (by decide)

/-- C10 as stated fails: for `("query-types", "A Record")` the code gives
`pdns_auth_map_query_types_arecord` and the claimed formula
`pdns_auth_map_query-types_arecord`; for `("x", "a-b")` the code gives
`pdns_auth_map_x_a_b` and the claimed formula `pdns_auth_map_x_ab`. -/
theorem claimed_map_name_differs :
    (∀ lower : Char → Char, (mapEntryDesc lower "query-types".toList "A Record".toList).fqName =
      "pdns_auth_map_query_types_arecord".toList) ∧
    (∀ lower : Char → Char, claimedMapName lower "query-types".toList "A Record".toList =
      "pdns_auth_map_query-types_arecord".toList) ∧
    (∀ lower : Char → Char, (mapEntryDesc lower "x".toList "a-b".toList).fqName =
      "pdns_auth_map_x_a_b".toList) ∧
    (∀ lower : Char → Char, claimedMapName lower "x".toList "a-b".toList =
      "pdns_auth_map_x_ab".toList) ∧
    "pdns_auth_map_query_types_arecord".toList ≠ "pdns_auth_map_query-types_arecord".toList ∧
    "pdns_auth_map_x_a_b".toList ≠ "pdns_auth_map_x_ab".toList := by
  refine ⟨fun lower => ?_, fun lower => ?_, fun lower => ?_, fun lower => ?_, by decide, by decide⟩
  · rw [mapEntry_fqName, normalizeSubName, ToLower_of_ascii lower _ (by decide)]
    decide
  · rw [claimedMapName, dropSpacesAndDashes, ToLower_of_ascii lower _ (by decide)]
    decide
  · rw [mapEntry_fqName, normalizeSubName, ToLower_of_ascii lower _ (by decide)]
    decide
  · rw [claimedMapName, dropSpacesAndDashes, ToLower_of_ascii lower _ (by decide)]
    decide

/-- C10, amended: the metric name of the sub-entry `(p, s)` is
`"pdns_auth_map" ++ "_" ++ p' ++ "_" ++ s'`, where `p'` is `p` with every `-`
replaced by `_` and `s'` is `s` lower-cased, with all spaces removed and
every `-` replaced by `_`; it is the name of the claimed formula (parent as
given, dashes removed) exactly when neither `p` nor the lower-cased `s`
contains a `-`. -/
theorem map_name_vs_claimed (lower : Char → Char) (p s : GoString) :
    (mapEntryDesc lower p s).fqName =
      "pdns_auth_map".toList ++ "_".toList ++ dashesToUnderscores p ++ "_".toList ++
        normalizeSubName lower s ∧
    ((mapEntryDesc lower p s).fqName = claimedMapName lower p s ↔
      '-' ∉ p ∧ '-' ∉ ToLower lower s) := by
  have hp : "pdns_auth_map".toList ++ "_".toList = "pdns_auth_map_".toList := by decide
  constructor
  · rw [mapEntry_fqName, hp]
    simp only [List.append_assoc]
  · rw [mapEntry_fqName, claimedMapName, hp]
    simp only [List.append_assoc]
    rw [List.append_right_inj]
    have hu : ∀ x : GoString, "_".toList ++ x = '_' :: x := fun _ => rfl
    rw [hu, hu]
    constructor
    · intro h
      obtain ⟨h1, h2⟩ := List.append_inj h (dashesToUnderscores_length p)
      rw [List.cons.injEq] at h2
      exact ⟨(dashesToUnderscores_fix p).mp h1, (dropDashes_eq_iff _).mp h2.2⟩
    · rintro ⟨h1, h2⟩
      rw [(dashesToUnderscores_fix p).mpr h1]
      unfold normalizeSubName dropSpacesAndDashes
      rw [(dropDashes_eq_iff _).mpr h2]

end PdnsExporter
